import Mathlib

/-!
Verification of the ring-down analysis pipeline (RD2 .. RD7).

The Python stages are shallowly embedded here:

* signals are lists of rationals (exact arithmetic stands in for float64;
  none of the verified properties depends on rounding),
* stages whose claims probe IEEE special values (RD6 validation, RD7
  validation) work over `PyFloat`, an explicit model of a Python float
  with `nan`, `inf` and `-inf` and IEEE comparison semantics,
* `np.pi` / `math.pi` is an abstract positive rational parameter `p`,
* the transcendental routines `np.log`, `np.exp`, `np.sqrt` used by RD4
  are abstract function parameters (no verified property depends on
  their values).
-/

/-- Model of a Python/NumPy double: an exact rational payload plus the
IEEE special values.  Rounding is not modelled. -/
inductive PyFloat where
  | fin (q : ℚ)
  | nan
  | inf
  | ninf
deriving DecidableEq, Repr

namespace PyFloat

/-- IEEE x <= y : any comparison with nan is false. -/
def pyLe : PyFloat → PyFloat → Bool
  | nan, _ => false
  | _, nan => false
  | fin a, fin b => decide (a ≤ b)
  | ninf, _ => true
  | _, inf => true
  | inf, fin _ => false
  | inf, ninf => false
  | fin _, ninf => false

/-- IEEE x < y : any comparison with nan is false. -/
def pyLt : PyFloat → PyFloat → Bool
  | nan, _ => false
  | _, nan => false
  | fin a, fin b => decide (a < b)
  | ninf, ninf => false
  | ninf, _ => true
  | _, inf => true
  | inf, _ => false
  | fin _, ninf => false

/-- IEEE x == y : nan is not equal to anything, including itself. -/
def pyEq : PyFloat → PyFloat → Bool
  | nan, _ => false
  | _, nan => false
  | fin a, fin b => decide (a = b)
  | inf, inf => true
  | ninf, ninf => true
  | _, _ => false

/-- IEEE x != y : in particular nan != nan is true. -/
def pyNe (x y : PyFloat) : Bool := !(pyEq x y)

/-- IEEE subtraction. -/
def pySub : PyFloat → PyFloat → PyFloat
  | nan, _ => nan
  | _, nan => nan
  | fin a, fin b => fin (a - b)
  | inf, inf => nan
  | inf, _ => inf
  | ninf, ninf => nan
  | ninf, _ => ninf
  | fin _, inf => ninf
  | fin _, ninf => inf

/-- IEEE multiplication. -/
def pyMul : PyFloat → PyFloat → PyFloat
  | nan, _ => nan
  | _, nan => nan
  | fin a, fin b => fin (a * b)
  | inf, inf => inf
  | inf, ninf => ninf
  | ninf, inf => ninf
  | ninf, ninf => inf
  | inf, fin b => if b = 0 then nan else if 0 < b then inf else ninf
  | fin a, inf => if a = 0 then nan else if 0 < a then inf else ninf
  | ninf, fin b => if b = 0 then nan else if 0 < b then ninf else inf
  | fin a, ninf => if a = 0 then nan else if 0 < a then ninf else inf

/-- IEEE division (NumPy semantics for division by zero: x/0 is a signed
infinity for x nonzero and nan for x = 0). -/
def pyDiv : PyFloat → PyFloat → PyFloat
  | nan, _ => nan
  | _, nan => nan
  | fin a, fin b =>
      if b = 0 then (if a = 0 then nan else if 0 < a then inf else ninf)
      else fin (a / b)
  | fin _, inf => fin 0
  | fin _, ninf => fin 0
  | inf, inf => nan
  | inf, ninf => nan
  | ninf, inf => nan
  | ninf, ninf => nan
  | inf, fin b => if 0 ≤ b then inf else ninf
  | ninf, fin b => if 0 ≤ b then ninf else inf

/-- IEEE absolute value. -/
def pyAbs : PyFloat → PyFloat
  | fin a => fin |a|
  | nan => nan
  | inf => inf
  | ninf => inf

/-- Python builtin max(a, b): returns b exactly when a < b (so a nan
first argument is returned unchanged). -/
def pyMax (x y : PyFloat) : PyFloat := if pyLt x y then y else x

end PyFloat

open PyFloat

/-- Result record of `rd7_damping_linewidth` (file
R7_Damping_Linewidth.py): the returned dictionary. -/
structure RD7Result where
  alpha : PyFloat
  df_tau : PyFloat
  df_Q : PyFloat
  warn : List String
  fix : List String
deriving DecidableEq, Repr

/-- Embedding of `rd7_damping_linewidth(tau_s, f0_hz, Q)` from
R7_Damping_Linewidth.py.  `p` stands for `np.pi`.  The `is None`
alternative of each validation test is dropped (inputs here are always
floats); the numeric comparison `x <= 0` is IEEE, so a nan input passes
every validation test.  Printing and the plot are not modelled; the
warning/fix strings are abridged but pairwise distinct. -/
def rd7_damping_linewidth (p : ℚ) (tau_s f0_hz Q : PyFloat) : RD7Result :=
  if pyLe tau_s (fin 0) then
    { alpha := nan, df_tau := nan, df_Q := nan
      warn := ["tau_s is non-positive"], fix := ["check RD4 exponential fit"] }
  else if pyLe f0_hz (fin 0) then
    { alpha := nan, df_tau := nan, df_Q := nan
      warn := ["f0_hz is invalid"], fix := ["check zero-crossings in RD5"] }
  else if pyLe Q (fin 0) then
    { alpha := nan, df_tau := nan, df_Q := nan
      warn := ["Q is invalid"], fix := ["check RD4 and RD5"] }
  else
    let alpha := pyDiv (fin 1) tau_s
    let df_tau := pyDiv (fin 1) (pyMul (fin (2 * p)) tau_s)
    let df_Q := pyDiv f0_hz Q
    let w1 := pyLt df_tau (fin (1/10))
    let w2 := pyLt (fin 100000) df_tau
    let w3 := pyLt (fin (3/10))
      (pyDiv (pyAbs (pySub df_tau df_Q)) (pyMax df_tau df_Q))
    { alpha := alpha, df_tau := df_tau, df_Q := df_Q
      warn := (if w1 then ["df_tau extremely small"] else []) ++
              (if w2 then ["df_tau very large"] else []) ++
              (if w3 then ["df_tau and df_Q mismatch above 30 percent"] else [])
      fix := (if w1 then ["decay too slow or envelope oversmoothed"] else []) ++
             (if w2 then ["decay too fast or signal too short"] else []) ++
             (if w3 then ["check Q from RD4 and f0 from RD5"] else []) }

/-- C1 amended: whenever the validation tests that the code actually
performs fire (tau_s <= 0, f0_hz <= 0 or Q <= 0 under IEEE comparison),
`rd7_damping_linewidth` returns nan for alpha, df_tau and df_Q together
with exactly one warning/fix pair (the one of the first violated test)
and performs no further computation; in particular tau = 0 or tau < 0
yields all sentinel outputs and exactly one diagnostic. -/
theorem rd7_validation_sentinels (p : ℚ) (tau_s f0_hz Q : PyFloat)
    (h : pyLe tau_s (fin 0) = true ∨ pyLe f0_hz (fin 0) = true ∨
      pyLe Q (fin 0) = true) :
    (rd7_damping_linewidth p tau_s f0_hz Q).alpha = nan ∧
    (rd7_damping_linewidth p tau_s f0_hz Q).df_tau = nan ∧
    (rd7_damping_linewidth p tau_s f0_hz Q).df_Q = nan ∧
    (rd7_damping_linewidth p tau_s f0_hz Q).warn.length = 1 ∧
    (rd7_damping_linewidth p tau_s f0_hz Q).fix.length = 1 := by
  unfold rd7_damping_linewidth
  by_cases h1 : pyLe tau_s (fin 0) = true
  · simp [h1]
  · by_cases h2 : pyLe f0_hz (fin 0) = true
    · simp [h1, h2]
    · by_cases h3 : pyLe Q (fin 0) = true
      · simp [h1, h2, h3]
      · rcases h with h | h | h <;> simp_all

/-- Witness for C1 at tau_s = 0: the precondition holds concretely and
the theorem applies. -/
theorem rd7_validation_sentinels_witness :
    (rd7_damping_linewidth 3 (fin 0) (fin 1) (fin 1)).alpha = nan ∧
    (rd7_damping_linewidth 3 (fin 0) (fin 1) (fin 1)).df_tau = nan ∧
    (rd7_damping_linewidth 3 (fin 0) (fin 1) (fin 1)).df_Q = nan ∧
    (rd7_damping_linewidth 3 (fin 0) (fin 1) (fin 1)).warn.length = 1 ∧
    (rd7_damping_linewidth 3 (fin 0) (fin 1) (fin 1)).fix.length = 1 :=
  rd7_validation_sentinels 3 (fin 0) (fin 1) (fin 1)
    (Or.inl (by simp [pyLe]))

/-- C1 counterexample: a non-finite tau (nan) is NOT rejected by the
validation stage — the IEEE test nan <= 0 is false — so the code goes on
computing: df_Q comes out as the finite value 1 (not a nan sentinel) and
no warning/fix pair at all is produced, contradicting the claim that any
non-finite input yields all-nan sentinels plus a warning/fix pair per
violated precondition. -/
theorem rd7_nan_input_not_rejected :
    (rd7_damping_linewidth 3 nan (fin 1) (fin 1)).df_Q = fin 1 ∧
    (rd7_damping_linewidth 3 nan (fin 1) (fin 1)).warn = [] := by
  norm_num [rd7_damping_linewidth, pyLe, pyLt, pyDiv, pyMul, pySub, pyAbs,
    pyMax]

/-- C2: with the recombined quality factor Q = pi * f0 * tau (as the
pipeline driver always passes), the two linewidths satisfy
df_Q = 2 * df_tau exactly, the relative disagreement
|df_tau - df_Q| / max(df_tau, df_Q) is exactly 1/2, and the mismatch
warning is emitted on every valid run. -/
theorem rd7_recombined_Q_mismatch (p a c : ℚ) (hp : 0 < p) (ha : 0 < a)
    (hc : 0 < c) :
    (rd7_damping_linewidth p (fin a) (fin c) (fin (p * c * a))).df_tau =
      fin (1 / (2 * p * a)) ∧
    (rd7_damping_linewidth p (fin a) (fin c) (fin (p * c * a))).df_Q =
      pyMul (fin 2)
        (rd7_damping_linewidth p (fin a) (fin c) (fin (p * c * a))).df_tau ∧
    pyDiv
      (pyAbs (pySub
        (rd7_damping_linewidth p (fin a) (fin c) (fin (p * c * a))).df_tau
        (rd7_damping_linewidth p (fin a) (fin c) (fin (p * c * a))).df_Q))
      (pyMax
        (rd7_damping_linewidth p (fin a) (fin c) (fin (p * c * a))).df_tau
        (rd7_damping_linewidth p (fin a) (fin c) (fin (p * c * a))).df_Q) =
      fin (1 / 2) ∧
    "df_tau and df_Q mismatch above 30 percent" ∈
      (rd7_damping_linewidth p (fin a) (fin c) (fin (p * c * a))).warn := by
  have hpa : 0 < p * a := by positivity
  have h2pa : 2 * p * a ≠ 0 := by positivity
  have hlt : 1 / (2 * p * a) < 1 / (p * a) :=
    one_div_lt_one_div_of_lt hpa (by linarith)
  have key1 : (1 : ℚ) / (2 * p * a) - 1 / (p * a) = -(1 / (2 * p * a)) := by
    field_simp
    ring
  have key2 : (1 : ℚ) / (2 * p * a) / (1 / (p * a)) = 1 / 2 := by
    rw [div_div_eq_mul_div, div_one, div_mul_eq_mul_div, one_mul]
    rw [div_eq_div_iff (by positivity) (by norm_num)]
    ring
  have hv1 : pyLe (fin a) (fin 0) = false := by
    simp [pyLe]; linarith
  have hv2 : pyLe (fin c) (fin 0) = false := by
    simp [pyLe]; linarith
  have hv3 : pyLe (fin (p * c * a)) (fin 0) = false := by
    simp [pyLe]; positivity
  have e1 : pyDiv (fin 1) (pyMul (fin (2 * p)) (fin a)) =
      fin (1 / (2 * p * a)) := by
    rw [pyMul, pyDiv, if_neg h2pa]
  have e2 : pyDiv (fin c) (fin (p * c * a)) = fin (1 / (p * a)) := by
    rw [pyDiv, if_neg (by positivity)]
    congr 1
    rw [div_eq_div_iff (by positivity) (by positivity)]
    ring
  have eratio : pyDiv
      (pyAbs (pySub (fin ((1 : ℚ) / (2 * p * a))) (fin (1 / (p * a)))))
      (pyMax (fin ((1 : ℚ) / (2 * p * a))) (fin (1 / (p * a)))) =
      fin (1 / 2) := by
    rw [pySub, pyAbs, pyMax, pyLt]
    rw [if_pos (by simp only [decide_eq_true_eq]; exact hlt)]
    rw [pyDiv, if_neg (by positivity)]
    rw [key1, abs_neg, abs_of_pos (by positivity), key2]
  have hdf_tau :
      (rd7_damping_linewidth p (fin a) (fin c) (fin (p * c * a))).df_tau =
        fin (1 / (2 * p * a)) := by
    simp only [rd7_damping_linewidth, hv1, hv2, hv3, Bool.false_eq_true,
      if_false]
    exact e1
  have hdf_Q :
      (rd7_damping_linewidth p (fin a) (fin c) (fin (p * c * a))).df_Q =
        fin (1 / (p * a)) := by
    simp only [rd7_damping_linewidth, hv1, hv2, hv3, Bool.false_eq_true,
      if_false]
    exact e2
  refine ⟨hdf_tau, ?_, ?_, ?_⟩
  · rw [hdf_Q, hdf_tau, pyMul]
    congr 1
    rw [mul_one_div, div_eq_div_iff (by positivity) (by positivity)]
    ring
  · rw [hdf_Q, hdf_tau]
    exact eratio
  · simp only [rd7_damping_linewidth, hv1, hv2, hv3, Bool.false_eq_true,
      if_false]
    rw [e1, e2, eratio]
    have hw3 : pyLt (fin ((3 : ℚ) / 10)) (fin (1 / 2)) = true := by
      simp only [pyLt, decide_eq_true_eq]
      norm_num
    simp only [hw3, if_true]
    simp [List.mem_append]

/-- Witness for C2 at p = 3, tau = 1, f0 = 1, Q = 3. -/
theorem rd7_recombined_Q_mismatch_witness :
    "df_tau and df_Q mismatch above 30 percent" ∈
      (rd7_damping_linewidth 3 (fin 1) (fin 1) (fin (3 * 1 * 1))).warn :=
  (rd7_recombined_Q_mismatch 3 1 1 (by norm_num) (by norm_num)
    (by norm_num)).2.2.2

/-- One data row of rd_results.csv as written by `rd6_save_results`
(RD6_summary.py): the mandatory numeric fields.  The timestamp and the
free-form extras do not influence any verified property and are not
modelled. -/
structure RDRow where
  f0_hz : PyFloat
  tau_s : PyFloat
  Q : PyFloat
  rmse : PyFloat
deriving DecidableEq, Repr

/-- State of the CSV store: whether a header line is present and the
data rows, in order. -/
structure CSVFile where
  header : Bool
  rows : List RDRow
deriving DecidableEq, Repr

/-- Embedding of `rd6_save_results(f0_hz, tau_s, Q, rmse, ...)` from
RD6_summary.py as a transformer of the CSV store state (`none` = the
file does not exist).  The validation section returns early:
`f0_hz != f0_hz` is the IEEE nan test, `tau_s <= 0` and `Q <= 0` are
IEEE comparisons (false on nan).  On the write path the code opens the
file in append mode, writes the header iff the file did not previously
exist, and appends exactly one row.  The purely diagnostic prints
(including the extra warnings about rmse, f0 range, low Q and the
linewidths) do not affect the store and are not modelled. -/
def rd6_save_results (f0_hz tau_s Q rmse : PyFloat)
    (file : Option CSVFile) : Option CSVFile :=
  if pyNe f0_hz f0_hz then file
  else if pyLe tau_s (fin 0) then file
  else if pyLe Q (fin 0) then file
  else
    match file with
    | none => some { header := true, rows := [⟨f0_hz, tau_s, Q, rmse⟩] }
    | some fl => some { header := fl.header
                        rows := fl.rows ++ [⟨f0_hz, tau_s, Q, rmse⟩] }

/-- C5 amended: the record is refused exactly when f0 is nan (IEEE
self-inequality), tau <= 0 or Q <= 0 (IEEE comparisons, so a nan tau or
Q is NOT refused and neither is a negative f0); otherwise exactly one
row is appended, with a header written iff the file did not previously
exist. -/
theorem rd6_append_spec (f0_hz tau_s Q rmse : PyFloat)
    (file : Option CSVFile) :
    rd6_save_results f0_hz tau_s Q rmse file =
      if pyNe f0_hz f0_hz || pyLe tau_s (fin 0) || pyLe Q (fin 0) then file
      else some { header := file.elim true CSVFile.header
                  rows := file.elim [] CSVFile.rows ++
                    [⟨f0_hz, tau_s, Q, rmse⟩] } := by
  unfold rd6_save_results
  by_cases h1 : pyNe f0_hz f0_hz = true
  · simp [h1]
  · by_cases h2 : pyLe tau_s (fin 0) = true
    · simp [h1, h2]
    · by_cases h3 : pyLe Q (fin 0) = true
      · simp [h1, h2, h3]
      · cases file <;> simp [h1, h2, h3, Option.elim]

/-- C5 counterexample: f0 = -1 is non-positive, yet the record IS
appended (the code only tests f0 for nan, not for positivity), against
the claim that any non-positive mandatory field blocks persistence. -/
theorem rd6_negative_f0_appended :
    rd6_save_results (fin (-1)) (fin 1) (fin 1) (fin 0)
      (some { header := true, rows := [] }) =
    some { header := true, rows := [⟨fin (-1), fin 1, fin 1, fin 0⟩] } := by
  norm_num [rd6_save_results, pyNe, pyEq, pyLe]

/-- Result of `rd2_clean_quick_look` (RD2_Clean_Quick_Look.py): the
measured DC offset and peak, the normalization flag, the DC-removed
signal x0 and the (optionally) normalized signal x1. -/
structure RD2Result where
  dc_offset : ℚ
  peak : ℚ
  norm_flag : Bool
  x0 : List ℚ
  x1 : List ℚ
deriving DecidableEq, Repr

/-- np.max(np.abs(l)) for the lists this pipeline feeds it: folding max
over the absolute values starting from 0 coincides with the true
maximum because every |v| is non-negative (numpy raises on an empty
array; callers here always pass a non-empty one). -/
def listAbsMax (l : List ℚ) : ℚ := (l.map (fun v => |v|)).foldr max 0

/-- Embedding of `rd2_clean_quick_look(x_relax, fs, zoom_ms, do_norm)`
from RD2_Clean_Quick_Look.py.  dc = mean(x); x0 = x - dc;
peak = max(|x0|); x1 = x0/peak when do_norm and peak > 0, else x0.
The zoom plot and the printed warnings (large DC, tiny amplitude, flat
signal, zoom window) do not affect the returned data and are not
modelled; fs and zoom_ms only feed them, so they are dropped here. -/
def rd2_clean_quick_look (x_relax : List ℚ) (do_norm : Bool) : RD2Result :=
  let dc := x_relax.sum / x_relax.length
  let x0 := x_relax.map (fun v => v - dc)
  let peak := listAbsMax x0
  if do_norm && decide (0 < peak) then
    { dc_offset := dc, peak := peak, norm_flag := true, x0 := x0
      x1 := x0.map (fun v => v / peak) }
  else
    { dc_offset := dc, peak := peak, norm_flag := false, x0 := x0, x1 := x0 }

/-- C9: re-running the signal conditioner with do_norm on an already
DC-removed (mean = 0), already peak-normalized (max |x| = 1) non-empty
signal returns the very same signal, with measured DC offset 0 and
peak 1 (exactly, in the exact-arithmetic model). -/
theorem rd2_idempotent (x : List ℚ) (hne : x ≠ [])
    (hdc : x.sum = 0) (hpk : listAbsMax x = 1) :
    (rd2_clean_quick_look x true).x1 = x ∧
    (rd2_clean_quick_look x true).dc_offset = 0 ∧
    (rd2_clean_quick_look x true).peak = 1 := by
  have hx0 : x.map (fun v => v - x.sum / x.length) = x := by
    rw [hdc]
    simp
  have hpeak : listAbsMax (x.map (fun v => v - x.sum / x.length)) = 1 := by
    rw [hx0, hpk]
  unfold rd2_clean_quick_look
  simp only [hx0, hpk]
  norm_num [hdc, List.map_id']

/-- Witness for C9 at x = [1, -1]. -/
theorem rd2_idempotent_witness :
    (rd2_clean_quick_look [1, -1] true).x1 = [1, -1] ∧
    (rd2_clean_quick_look [1, -1] true).dc_offset = 0 ∧
    (rd2_clean_quick_look [1, -1] true).peak = 1 :=
  rd2_idempotent [1, -1] (by simp) (by norm_num)
    (by norm_num [listAbsMax])

/-- np.signbit for the rational model: true exactly for negative values
(the signal model has no negative zero). -/
def signbitQ (q : ℚ) : Bool := decide (q < 0)

/-- The zero-crossing indices of RD5_freq_est.py: positions k where the
sign bit changes between samples k and k+1 (`s[:-1] != s[1:]`). -/
def rd5_crossings (x : List ℚ) : List ℕ :=
  (List.range (x.length - 1)).filter
    (fun k => signbitQ (x.getD k 0) != signbitQ (x.getD (k + 1) 0))

/-- Embedding of `rd5_freq_from_relax(x1_relax, fs, min_crossings)` from
RD5_freq_est.py, returning (f0_relax_hz, n_cycles_used).  Both early
validation exits return (nan, 0).  On the success path the sub-sample
crossing times, their consecutive differences, the estimated full
period T = 2*mean(diff) and f0 = 1/T are exact rational arithmetic
(1e-12 is the code's interpolation epsilon).  The printed warnings
(irregular spacing, out-of-band f0) do not affect the returned values
and are not modelled. -/
def rd5_freq_from_relax (x : List ℚ) (fs : ℚ) (min_crossings : ℕ) :
    PyFloat × ℕ :=
  let idx := rd5_crossings x
  if idx.length < min_crossings then (nan, 0)
  else
    let zt := idx.map (fun k =>
      let x0 := x.getD k 0
      let x1 := x.getD (k + 1) 0
      ((k : ℚ) + x0 / (x0 - x1 + 1 / 1000000000000)) / fs)
    let dt := (zt.zip zt.tail).map (fun pr => pr.2 - pr.1)
    if dt.length < 2 then (nan, 0)
    else
      let T_est := 2 * (dt.sum / dt.length)
      (fin (1 / T_est), dt.length + 1)

/-- C6: with fewer than min_crossings detected sign changes, or fewer
than 2 inter-crossing intervals (the interval count is the crossing
count minus one), the frequency estimator returns the nan sentinel and
zero cycles used, never a numeric frequency. -/
theorem rd5_too_few_crossings_sentinel (x : List ℚ) (fs : ℚ)
    (min_crossings : ℕ)
    (h : (rd5_crossings x).length < min_crossings ∨
      (rd5_crossings x).length - 1 < 2) :
    rd5_freq_from_relax x fs min_crossings = (nan, 0) := by
  unfold rd5_freq_from_relax
  by_cases h1 : (rd5_crossings x).length < min_crossings
  · simp [h1]
  · rcases h with h | h
    · exact absurd h h1
    · simp only [h1, if_false]
      have hzip : ∀ (l : List ℚ), (l.zip l.tail).length = l.length - 1 := by
        intro l
        cases l with
        | nil => simp
        | cons a t => simp [List.length_zip]
      have hlen :
          (((rd5_crossings x).map (fun k =>
            let x0 := x.getD k 0
            let x1 := x.getD (k + 1) 0
            ((k : ℚ) + x0 / (x0 - x1 + 1 / 1000000000000)) / fs)).length) =
            (rd5_crossings x).length := List.length_map _ _
      rw [if_pos]
      simp only [List.length_map, hzip, List.length_map]
      omega

/-- Witness for C6: a constant positive signal has no sign change at
all, so the sentinel is returned. -/
theorem rd5_too_few_crossings_sentinel_witness :
    rd5_freq_from_relax [1, 1, 1] 1 6 = (nan, 0) :=
  rd5_too_few_crossings_sentinel [1, 1, 1] 1 6
    (Or.inl (by decide))

/-- The RD3 smoothing window (RD3_Envelope.py):
`samples_per_period = fs / f0`, `M = int(max(5, samples_per_period // 2))`
where `//` is float floor division, so M = max(5, floor((fs/f0)/2)). -/
def rd3_M (fs f0 : ℚ) : ℕ := (max 5 ⌊fs / f0 / 2⌋).toNat

/-- Start offset of numpy convolve mode "same": the full convolution has
length n + M - 1 and the centered slice of length max(n, M) starts at
(min(n, M) - 1) / 2 (integer division). -/
def convSameStart (n M : ℕ) : ℕ := (min n M - 1) / 2

/-- Entry j of np.convolve(y, ones(M)/M, "full"): the kernel is constant
1/M, so full[j] = (1/M) * sum of y over the index window
[j - M + 1, j] intersected with [0, n). -/
def convFullEntry (y : List ℚ) (M : ℕ) (j : ℕ) : ℚ :=
  (∑ t in Finset.range y.length,
    if t ≤ j ∧ j - t < M then y.getD t 0 else 0) / M

/-- np.convolve(y, ones(M)/M, mode="same"): the centered slice of
length max(n, M) of the full convolution. -/
def rd3_env (y : List ℚ) (M : ℕ) : List ℚ :=
  (List.range (max y.length M)).map
    (fun i => convFullEntry y M (convSameStart y.length M + i))

/-- Population mean of a list (np.mean). -/
def meanQ (l : List ℚ) : ℚ := l.sum / l.length

/-- Population variance of a list (np.var, the square of np.std). -/
def varQ (l : List ℚ) : ℚ :=
  (l.map (fun v => (v - meanQ l) ^ 2)).sum / l.length

/-- Mean of squares (second moment) of a list. -/
def meanSqQ (l : List ℚ) : ℚ := (l.map (fun v => v ^ 2)).sum / l.length

/-- Result of `rd3_envelope` (RD3_Envelope.py). -/
structure RD3Result where
  env : List ℚ
  M : ℕ
  warn : List String
deriving DecidableEq, Repr

/-- Embedding of `rd3_envelope(x1_relax, fs, f0)` from RD3_Envelope.py:
rectify, then smooth with a moving average implemented as
np.convolve(env_abs, ones(M)/M, mode="same").  The flatness test
`np.std(env_abs) < 1e-3` is encoded on variances (std < c iff
var < c^2 for c > 0) to stay inside exact rational arithmetic.  The
plot is not modelled; warning strings are abridged but distinct. -/
def rd3_envelope (x1_relax : List ℚ) (fs f0 : ℚ) : RD3Result :=
  let env_abs := x1_relax.map (fun v => |v|)
  let w1 := if varQ env_abs < 1 / 1000000
    then ["envelope magnitude is almost flat"] else []
  let M := rd3_M fs f0
  let w2 := if M < 5 then ["smoothing window M is very small"] else []
  let w3 := if env_abs.length / 4 < M
    then ["smoothing window too large"] else []
  { env := rd3_env env_abs M, M := M, warn := w1 ++ w2 ++ w3 }

/-- C10: for any sample rate and any nonzero frequency guess the window
M = max(5, floor((fs/f0)/2)) is at least 5, so the RD3 branch that warns
about a too-small smoothing window is unreachable. -/
theorem rd3_M_warning_unreachable (x1_relax : List ℚ) (fs f0 : ℚ)
    (hf0 : f0 ≠ 0) :
    5 ≤ (rd3_envelope x1_relax fs f0).M ∧
    "smoothing window M is very small" ∉ (rd3_envelope x1_relax fs f0).warn := by
  have hM : 5 ≤ rd3_M fs f0 := by
    unfold rd3_M
    have h5 : (5 : ℤ) ≤ max 5 ⌊fs / f0 / 2⌋ := le_max_left _ _
    omega
  constructor
  · exact hM
  · have hnot : ¬ (rd3_M fs f0 < 5) := Nat.not_lt.mpr hM
    simp only [rd3_envelope, hnot, if_false, List.append_nil]
    intro hmem
    rw [List.mem_append] at hmem
    rcases hmem with h | h
    · by_cases hc : varQ (x1_relax.map (fun v => |v|)) < 1 / 1000000
      · rw [if_pos hc] at h
        rw [List.mem_singleton] at h
        exact absurd h (by decide)
      · rw [if_neg hc] at h
        exact absurd h (List.not_mem_nil _)
    · by_cases hc :
        (x1_relax.map (fun v => |v|)).length / 4 < rd3_M fs f0
      · rw [if_pos hc] at h
        rw [List.mem_singleton] at h
        exact absurd h (by decide)
      · rw [if_neg hc] at h
        exact absurd h (List.not_mem_nil _)

/-- Witness for C10 with f0 = 1 on a tiny signal. -/
theorem rd3_M_warning_unreachable_witness :
    5 ≤ (rd3_envelope [1, -1] 1 1).M ∧
    "smoothing window M is very small" ∉ (rd3_envelope [1, -1] 1 1).warn :=
  rd3_M_warning_unreachable [1, -1] 1 1 (by norm_num)

/-- The sum of a mapped list as a positional sum. -/
theorem list_map_sum_eq_getD (l : List ℚ) (f : ℚ → ℚ) :
    (l.map f).sum = ∑ t in Finset.range l.length, f (l.getD t 0) := by
  induction l with
  | nil => simp
  | cons a t ih =>
    simp only [List.map_cons, List.sum_cons, List.length_cons]
    rw [Finset.sum_range_succ']
    simp only [List.getD_cons_succ, List.getD_cons_zero]
    rw [ih]
    ring

/-- The sum of a function mapped over List.range as a Finset sum. -/
theorem range_map_sum_eq (L : ℕ) (h : ℕ → ℚ) :
    ((List.range L).map h).sum = ∑ i in Finset.range L, h i := by
  induction L with
  | zero => simp
  | succ n ih =>
    rw [List.range_succ, List.map_append, List.sum_append,
      Finset.sum_range_succ, ih]
    simp

/-- Entry access into the smoothed envelope. -/
theorem rd3_env_getD (y : List ℚ) (M : ℕ) (i : ℕ)
    (hi : i < max y.length M) :
    (rd3_env y M).getD i 0 =
      convFullEntry y M (convSameStart y.length M + i) := by
  unfold rd3_env
  rw [List.getD_eq_getElem?_getD, List.getElem?_map, List.getElem?_range hi]
  simp

/-- Entries of the rectified signal are non-negative (including the
out-of-range default). -/
theorem absList_getD_nonneg (x : List ℚ) (t : ℕ) :
    0 ≤ (x.map (fun v => |v|)).getD t 0 := by
  rw [List.getD_eq_getElem?_getD, List.getElem?_map]
  cases h2 : x[t]? with
  | none => simp
  | some w => simp [abs_nonneg]

/-- Entry t of the rectified signal, in range. -/
theorem absList_getD_eq (x : List ℚ) (t : ℕ) (ht : t < x.length) :
    (x.map (fun v => |v|)).getD t 0 = |x.getD t 0| := by
  rw [List.getD_eq_getElem?_getD, List.getElem?_map,
    List.getElem?_eq_getElem ht]
  rw [List.getD_eq_getElem?_getD, List.getElem?_eq_getElem ht]
  simp

/-- C8 counterexample: on the conditioned (mean 0, peak 1) four-sample
input [1,-1,1,-1] with fs = f0 = 1 the envelope has length 5, not the
input length 4 — numpy convolve in "same" mode returns max(len, M)
samples, and here M = 5 > 4. -/
theorem rd3_env_length_cex :
    (rd3_envelope [1, -1, 1, -1] 1 1).env.length = 5 ∧
    ([1, -1, 1, -1] : List ℚ).length = 4 := by
  have hfl : ⌊(1 : ℚ) / 1 / 2⌋ = 0 := by
    rw [Int.floor_eq_zero_iff]
    constructor <;> norm_num
  have hM : rd3_M 1 1 = 5 := by
    unfold rd3_M
    rw [hfl]
    decide
  constructor
  · simp [rd3_envelope, rd3_env, hM]
  · rfl

/-- C8 amended: provided the window M = max(5, floor((fs/f0)/2)) does
not exceed the signal length, the envelope has the input's length,
every entry is non-negative, and each of the first len(x) entries is
the M-window moving average (under numpy zero padding) of the rectified
signal. -/
theorem rd3_env_shape (x1_relax : List ℚ) (fs f0 : ℚ)
    (hne : x1_relax ≠ []) (hfs : 0 < fs) (hf0 : 0 < f0)
    (hM : rd3_M fs f0 ≤ x1_relax.length) :
    (rd3_envelope x1_relax fs f0).env.length = x1_relax.length ∧
    (∀ e ∈ (rd3_envelope x1_relax fs f0).env, 0 ≤ e) ∧
    (rd3_envelope x1_relax fs f0).M = (max 5 ⌊fs / f0 / 2⌋).toNat ∧
    (∀ i < x1_relax.length,
      (rd3_envelope x1_relax fs f0).env.getD i 0 =
        (∑ t in Finset.range x1_relax.length,
          if t ≤ convSameStart x1_relax.length (rd3_M fs f0) + i ∧
              convSameStart x1_relax.length (rd3_M fs f0) + i - t < rd3_M fs f0
            then |x1_relax.getD t 0| else 0) / rd3_M fs f0) := by
  have hlen : (x1_relax.map (fun v => |v|)).length = x1_relax.length :=
    List.length_map _ _
  have hmax : max (x1_relax.map (fun v => |v|)).length (rd3_M fs f0) =
      x1_relax.length := by
    rw [hlen]
    exact Nat.max_eq_left hM
  have henv : (rd3_envelope x1_relax fs f0).env =
      rd3_env (x1_relax.map (fun v => |v|)) (rd3_M fs f0) := rfl
  refine ⟨?_, ?_, rfl, ?_⟩
  · rw [henv]
    unfold rd3_env
    rw [List.length_map, List.length_range, hmax]
  · rw [henv]
    unfold rd3_env
    intro e he
    rw [List.mem_map] at he
    obtain ⟨i, _, rfl⟩ := he
    unfold convFullEntry
    apply div_nonneg _ (by positivity)
    apply Finset.sum_nonneg
    intro t _
    split
    · exact absList_getD_nonneg _ _
    · exact le_refl 0
  · intro i hi
    rw [henv, rd3_env_getD _ _ _ (by rw [hmax]; exact hi)]
    unfold convFullEntry
    rw [hlen]
    congr 1
    apply Finset.sum_congr rfl
    intro t ht
    rw [Finset.mem_range] at ht
    rw [absList_getD_eq _ _ ht]

/-- Witness for C8 on a length-5 signal with M = 5. -/
theorem rd3_env_shape_witness :
    (rd3_envelope [1, 1, 1, 1, 1] 1 1).env.length = 5 ∧
    (∀ e ∈ (rd3_envelope [1, 1, 1, 1, 1] 1 1).env, 0 ≤ e) := by
  have hfl : ⌊(1 : ℚ) / 1 / 2⌋ = 0 := by
    rw [Int.floor_eq_zero_iff]
    constructor <;> norm_num
  have h := rd3_env_shape [1, 1, 1, 1, 1] 1 1 (by simp) (by norm_num)
    (by norm_num) (by unfold rd3_M; rw [hfl]; decide)
  exact ⟨h.1, h.2.1⟩

/-- The window indicator of one envelope entry sums to at most M over
the input positions (the window [j - M + 1, j] has at most M points). -/
theorem window_card_le_M (n M j : ℕ) :
    ∑ t in Finset.range n,
      (if t ≤ j ∧ j - t < M then (1 : ℚ) else 0) ≤ M := by
  rw [Finset.sum_boole]
  have hcard : ((Finset.range n).filter
      (fun t => t ≤ j ∧ j - t < M)).card ≤ M := by
    have := Finset.card_le_card_of_injOn (fun t => j - t)
      (s := (Finset.range n).filter (fun t => t ≤ j ∧ j - t < M))
      (t := Finset.range M)
      (by
        intro t ht
        rw [Finset.mem_filter] at ht
        rw [Finset.mem_range]
        exact ht.2.2)
      (by
        intro t1 h1 t2 h2 heq
        simp only [Finset.coe_filter, Set.mem_setOf_eq,
          Finset.mem_range] at h1 h2
        simp only at heq
        omega)
    simpa using this
  exact_mod_cast hcard

/-- Each input position contributes to at most M of the envelope
entries. -/
theorem window_hits_le_M (L M s t : ℕ) :
    ∑ i in Finset.range L,
      (if t ≤ s + i ∧ s + i - t < M then (1 : ℚ) else 0) ≤ M := by
  rw [Finset.sum_boole]
  have hcard : ((Finset.range L).filter
      (fun i => t ≤ s + i ∧ s + i - t < M)).card ≤ M := by
    have := Finset.card_le_card_of_injOn (fun i => s + i - t)
      (s := (Finset.range L).filter (fun i => t ≤ s + i ∧ s + i - t < M))
      (t := Finset.range M)
      (by
        intro i hi
        rw [Finset.mem_filter] at hi
        rw [Finset.mem_range]
        exact hi.2.2)
      (by
        intro i1 h1 i2 h2 heq
        simp only [Finset.coe_filter, Set.mem_setOf_eq,
          Finset.mem_range] at h1 h2
        simp only at heq
        omega)
    simpa using this
  exact_mod_cast hcard

/-- Cauchy–Schwarz step: one smoothed entry squared, scaled by M^2, is
bounded by M times the windowed sum of squares. -/
theorem conv_entry_sq_le (y : List ℚ) (M j : ℕ) :
    (∑ t in Finset.range y.length,
      if t ≤ j ∧ j - t < M then y.getD t 0 else 0) ^ 2 ≤
    (M : ℚ) * ∑ t in Finset.range y.length,
      (if t ≤ j ∧ j - t < M then (y.getD t 0) ^ 2 else 0) := by
  have hcs := Finset.sum_mul_sq_le_sq_mul_sq (Finset.range y.length)
    (fun t => if t ≤ j ∧ j - t < M then (1 : ℚ) else 0)
    (fun t => if t ≤ j ∧ j - t < M then y.getD t 0 else 0)
  have e1 : ∀ t, (if t ≤ j ∧ j - t < M then (1 : ℚ) else 0) *
      (if t ≤ j ∧ j - t < M then y.getD t 0 else 0) =
      (if t ≤ j ∧ j - t < M then y.getD t 0 else 0) := by
    intro t
    split <;> simp
  have e2 : ∀ t, (if t ≤ j ∧ j - t < M then (1 : ℚ) else 0) ^ 2 =
      (if t ≤ j ∧ j - t < M then (1 : ℚ) else 0) := by
    intro t
    split <;> simp
  have e3 : ∀ t, (if t ≤ j ∧ j - t < M then y.getD t 0 else 0) ^ 2 =
      (if t ≤ j ∧ j - t < M then (y.getD t 0) ^ 2 else 0) := by
    intro t
    split <;> simp
  simp only [e1, e2, e3] at hcs
  calc (∑ t in Finset.range y.length,
        if t ≤ j ∧ j - t < M then y.getD t 0 else 0) ^ 2 ≤
      (∑ t in Finset.range y.length,
        if t ≤ j ∧ j - t < M then (1 : ℚ) else 0) *
      (∑ t in Finset.range y.length,
        if t ≤ j ∧ j - t < M then (y.getD t 0) ^ 2 else 0) := hcs
    _ ≤ (M : ℚ) * ∑ t in Finset.range y.length,
        (if t ≤ j ∧ j - t < M then (y.getD t 0) ^ 2 else 0) := by
        apply mul_le_mul_of_nonneg_right (window_card_le_M _ _ _)
        apply Finset.sum_nonneg
        intro t _
        split
        · positivity
        · exact le_refl 0

/-- Young-type bound: the sum of squares of any slice of the smoothed
envelope never exceeds the sum of squares of the input. -/
theorem conv_sum_sq_le (y : List ℚ) (M L s : ℕ) (hM : 1 ≤ M) :
    ∑ i in Finset.range L, (convFullEntry y M (s + i)) ^ 2 ≤
      ∑ t in Finset.range y.length, (y.getD t 0) ^ 2 := by
  have hMq : (0 : ℚ) < M := by exact_mod_cast hM
  have hstep : ∀ i ∈ Finset.range L,
      (convFullEntry y M (s + i)) ^ 2 ≤
      (1 / (M : ℚ)) * ∑ t in Finset.range y.length,
        (if t ≤ s + i ∧ s + i - t < M then (y.getD t 0) ^ 2 else 0) := by
    intro i _
    unfold convFullEntry
    rw [div_pow]
    rw [div_le_iff (by positivity)]
    calc (∑ t in Finset.range y.length,
          if t ≤ s + i ∧ s + i - t < M then y.getD t 0 else 0) ^ 2 ≤
        (M : ℚ) * ∑ t in Finset.range y.length,
          (if t ≤ s + i ∧ s + i - t < M then (y.getD t 0) ^ 2 else 0) :=
        conv_entry_sq_le y M (s + i)
      _ = (1 / (M : ℚ)) * (∑ t in Finset.range y.length,
            (if t ≤ s + i ∧ s + i - t < M then (y.getD t 0) ^ 2 else 0)) *
            (M : ℚ) ^ 2 := by
          field_simp
          ring
  calc ∑ i in Finset.range L, (convFullEntry y M (s + i)) ^ 2 ≤
      ∑ i in Finset.range L, (1 / (M : ℚ)) *
        ∑ t in Finset.range y.length,
          (if t ≤ s + i ∧ s + i - t < M then (y.getD t 0) ^ 2 else 0) :=
      Finset.sum_le_sum hstep
    _ = (1 / (M : ℚ)) * ∑ t in Finset.range y.length,
        (∑ i in Finset.range L,
          (if t ≤ s + i ∧ s + i - t < M then (1 : ℚ) else 0)) *
          (y.getD t 0) ^ 2 := by
        rw [← Finset.mul_sum]
        congr 1
        rw [Finset.sum_comm]
        apply Finset.sum_congr rfl
        intro t _
        rw [Finset.sum_mul]
        apply Finset.sum_congr rfl
        intro i _
        split <;> simp
    _ ≤ (1 / (M : ℚ)) * ∑ t in Finset.range y.length,
        (M : ℚ) * (y.getD t 0) ^ 2 := by
        apply mul_le_mul_of_nonneg_left _ (by positivity)
        apply Finset.sum_le_sum
        intro t _
        apply mul_le_mul_of_nonneg_right (window_hits_le_M _ _ _ _)
          (by positivity)
    _ = ∑ t in Finset.range y.length, (y.getD t 0) ^ 2 := by
        rw [← Finset.mul_sum, ← mul_assoc]
        rw [one_div, inv_mul_cancel₀ (ne_of_gt hMq), one_mul]

/-- C4 amended: smoothing contracts the second moment — the mean of
squares of the RD3 envelope is at most the mean of squares of the
rectified input (the variance claim itself fails at the edges, see the
counterexample below). -/
theorem rd3_mean_square_contraction (x1_relax : List ℚ) (fs f0 : ℚ)
    (hne : x1_relax ≠ []) (hfs : 0 < fs) (hf0 : 0 < f0) :
    meanSqQ (rd3_envelope x1_relax fs f0).env ≤
      meanSqQ (x1_relax.map (fun v => |v|)) := by
  have hM5 : 5 ≤ rd3_M fs f0 := by
    unfold rd3_M
    have h5 : (5 : ℤ) ≤ max 5 ⌊fs / f0 / 2⌋ := le_max_left _ _
    omega
  have hM1 : 1 ≤ rd3_M fs f0 := by omega
  have hlen : (x1_relax.map (fun v => |v|)).length = x1_relax.length :=
    List.length_map _ _
  have hn : 0 < x1_relax.length := List.length_pos.mpr hne
  have henv : (rd3_envelope x1_relax fs f0).env =
      rd3_env (x1_relax.map (fun v => |v|)) (rd3_M fs f0) := rfl
  set y := x1_relax.map (fun v => |v|) with hy
  set M := rd3_M fs f0 with hMdef
  set n := y.length with hndef
  set L := max n M with hL
  have hnL : n ≤ L := le_max_left _ _
  have hLpos : 0 < L := lt_of_lt_of_le (hlen ▸ hn) hnL
  have hsumle : ∑ i in Finset.range L,
      (convFullEntry y M (convSameStart n M + i)) ^ 2 ≤
      ∑ t in Finset.range n, (y.getD t 0) ^ 2 :=
    conv_sum_sq_le y M L (convSameStart n M) hM1
  have hBnonneg : 0 ≤ ∑ t in Finset.range n, (y.getD t 0) ^ 2 :=
    Finset.sum_nonneg (fun t _ => by positivity)
  have hEnvSum : ((rd3_env y M).map (fun v => v ^ 2)).sum =
      ∑ i in Finset.range L, (convFullEntry y M (convSameStart n M + i)) ^ 2 := by
    unfold rd3_env
    rw [List.map_map]
    exact range_map_sum_eq L _
  have hEnvLen : (rd3_env y M).length = L := by
    unfold rd3_env
    rw [List.length_map, List.length_range]
  have hInSum : (y.map (fun v => v ^ 2)).sum =
      ∑ t in Finset.range n, (y.getD t 0) ^ 2 :=
    list_map_sum_eq_getD y _
  rw [henv]
  unfold meanSqQ
  rw [hEnvSum, hEnvLen, hInSum, ← hndef]
  calc (∑ i in Finset.range L,
        (convFullEntry y M (convSameStart n M + i)) ^ 2) / (L : ℚ) ≤
      (∑ t in Finset.range n, (y.getD t 0) ^ 2) / (L : ℚ) := by
        rw [div_le_div_right (by exact_mod_cast hLpos)]
        exact hsumle
    _ ≤ (∑ t in Finset.range n, (y.getD t 0) ^ 2) / (n : ℚ) := by
        apply div_le_div_of_nonneg_left hBnonneg
          (by exact_mod_cast hlen ▸ hn) (by exact_mod_cast hnL)

/-- Witness for C4 at x = [1, -1]. -/
theorem rd3_mean_square_contraction_witness :
    meanSqQ (rd3_envelope [1, -1] 1 1).env ≤
      meanSqQ (([1, -1] : List ℚ).map (fun v => |v|)) :=
  rd3_mean_square_contraction [1, -1] 1 1 (by simp) (by norm_num)
    (by norm_num)

/-- C4 counterexample: for the alternating signal [1,-1,1,-1,1,-1] the
rectified input is constant (variance 0) but the zero-padded "same"
convolution rolls the envelope off at both edges, so the envelope
variance is strictly LARGER than the rectified input's variance,
refuting the claimed monotonicity of variance. -/
theorem rd3_variance_increase_cex :
    varQ (([1, -1, 1, -1, 1, -1] : List ℚ).map (fun v => |v|)) <
      varQ (rd3_envelope [1, -1, 1, -1, 1, -1] 1 1).env := by
  have hfl : ⌊(1 : ℚ) / 1 / 2⌋ = 0 := by
    rw [Int.floor_eq_zero_iff]
    constructor <;> norm_num
  have hM : rd3_M 1 1 = 5 := by
    unfold rd3_M
    rw [hfl]
    decide
  have habs : ([1, -1, 1, -1, 1, -1] : List ℚ).map (fun v => |v|) =
      [1, 1, 1, 1, 1, 1] := by norm_num
  have henv : (rd3_envelope [1, -1, 1, -1, 1, -1] 1 1).env =
      [3/5, 4/5, 1, 1, 4/5, 3/5] := by
    show rd3_env (([1, -1, 1, -1, 1, -1] : List ℚ).map (fun v => |v|))
      (rd3_M 1 1) = _
    rw [habs, hM]
    unfold rd3_env convSameStart convFullEntry
    norm_num [List.range_succ, Finset.sum_range_succ]
  rw [habs, henv]
  norm_num [varQ, meanQ]

/-- Result of `rd4_fit_decay` (RD4_Fit_Decay.py): the returned tuple
(tau_s, Q_env, fit_rmse, (i0, i1)) plus the printed warnings. -/
structure RD4Result where
  tau_s : ℚ
  Q_env : ℚ
  fit_rmse : ℚ
  i0 : ℕ
  i1 : ℕ
  warn : List String
deriving DecidableEq, Repr

/-- `samples_per_period = int(fs / f0)` of RD4_Fit_Decay.py (for the
positive rates used, int() truncation is the floor). -/
def rd4_spp (fs f0 : ℚ) : ℕ := ⌊fs / f0⌋.toNat

/-- The fit window start: i0 = guard_periods * samples_per_period with
fallback to 0 (plus a warning) when i0 >= len(env). -/
def rd4_i0 (envLen : ℕ) (fs f0 : ℚ) (guard_periods : ℕ) : ℕ :=
  if envLen ≤ guard_periods * rd4_spp fs f0 then 0
  else guard_periods * rd4_spp fs f0

/-- The fit window end: i0 plus the first offset j with
env[i0 + j] <= env[i0] * drop_frac, or len(env) when no entry of
env[i0:] drops that far (np.where(...)[0] scan). -/
def rd4_i1 (env : List ℚ) (i0 : ℕ) (drop_frac : ℚ) : ℕ :=
  match (env.drop i0).findIdx?
      (fun v => decide (v ≤ env.getD i0 0 * drop_frac)) with
  | some j => i0 + j
  | none => env.length

/-- np.polyfit(ts, ys, 1), returning some (slope, intercept), or none
for the raising path.  polyfit divides each Vandermonde column by its
Euclidean norm before calling np.linalg.lstsq and unscales the solution
afterwards.  With two or more (distinct) sample points the system is
full rank and the unique ordinary least-squares solution comes out in
closed form.  With a single sample point t0 the system is
underdetermined: for t0 = 0 the first column has norm 0, the scaling
division produces nan and np.linalg.lstsq raises LinAlgError (modelled
as none); for t0 /= 0 the scaled minimum-norm solution unscales to
(y0 / (2 t0), y0 / 2). -/
def polyfit1 (ts ys : List ℚ) : Option (ℚ × ℚ) :=
  if ts.length = 1 then
    let t0 := ts.getD 0 0
    let y0 := ys.getD 0 0
    if t0 = 0 then none
    else some (y0 / (2 * t0), y0 / 2)
  else
    let st := ts.sum
    let sy := ys.sum
    let sty := ((ts.zip ys).map (fun pr => pr.1 * pr.2)).sum
    let stt := (ts.map (fun t => t ^ 2)).sum
    let b := ((ts.length : ℚ) * sty - st * sy) /
      ((ts.length : ℚ) * stt - st ^ 2)
    some (b, (sy - b * st) / (ts.length : ℚ))

/-- The ordinary least-squares slope in the closed form the claim
states (covariance over variance); spec-side definition used to
cross-check `polyfit1`. -/
def olsSlope (ts ys : List ℚ) : ℚ :=
  ((ts.length : ℚ) * ((ts.zip ys).map (fun pr => pr.1 * pr.2)).sum -
    ts.sum * ys.sum) /
  ((ts.length : ℚ) * (ts.map (fun t => t ^ 2)).sum - ts.sum ^ 2)

/-- Embedding of `rd4_fit_decay(env, fs, f0, guard_periods, drop_frac)`
from RD4_Fit_Decay.py.  `p` stands for np.pi; lnf, expf and sqrtf stand
for np.log, np.exp and np.sqrt (every verified property holds for all
of them).  `none` models the two raising paths: an empty window [i0,
i1) raises IndexError at the `[RD4-A]` progress print (`t_fit[0]`), and
a one-sample window starting at index 0 makes np.polyfit raise
LinAlgError (nothing catches it, so the error aborts the call); every
other path returns the computed values, warnings included (1e-12 is the
code's log epsilon).  The overlay plot is not modelled and warning
strings are abridged but distinct. -/
def rd4_fit_decay (p : ℚ) (lnf expf sqrtf : ℚ → ℚ) (env : List ℚ)
    (fs f0 : ℚ) (guard_periods : ℕ) (drop_frac : ℚ) : Option RD4Result :=
  let i0raw := guard_periods * rd4_spp fs f0
  let warn0 : List String :=
    if env.length ≤ i0raw then ["guard_periods too large"] else []
  let i0 := rd4_i0 env.length fs f0 guard_periods
  let i1 := rd4_i1 env i0 drop_frac
  let warn1 : List String :=
    if i1 - i0 < 20 then ["very short fitting region"] else []
  if i1 ≤ i0 then none
  else
    let t_fit := (List.range (i1 - i0)).map
      (fun k => ((i0 + k : ℕ) : ℚ) / fs)
    let y_fit := (env.drop i0).take (i1 - i0)
    let ln_y := y_fit.map (fun v => lnf (v + 1 / 1000000000000))
    (polyfit1 t_fit ln_y).map (fun ba =>
      let tau_s := -1 / ba.1
      let Q_env := p * f0 * tau_s
      let y_pred := t_fit.map (fun t => expf (ba.2 + ba.1 * t))
      let fit_rmse := sqrtf
        ((((y_fit.zip y_pred).map (fun pr => (pr.1 - pr.2) ^ 2)).sum) /
          ((i1 - i0 : ℕ) : ℚ))
      let warn2 : List String :=
        (if 1 / 20 < fit_rmse then ["poor exponential fit"] else []) ++
        (if tau_s < 0 then ["negative tau detected"] else [])
      { tau_s := tau_s, Q_env := Q_env, fit_rmse := fit_rmse,
        i0 := i0, i1 := i1, warn := warn0 ++ warn1 ++ warn2 })

/-- polyfit1 succeeds exactly when the sample is not a lone point with
abscissa 0 (where np.polyfit raises LinAlgError). -/
theorem polyfit1_isSome_iff (ts ys : List ℚ) :
    (polyfit1 ts ys).isSome = true ↔
      ¬ (ts.length = 1 ∧ ts.getD 0 0 = 0) := by
  unfold polyfit1
  split_ifs with h1 h0 <;> simp_all

/-- First entry of the fit time axis. -/
theorem tfit_getD_zero (n i0 : ℕ) (fs : ℚ) (hn : 0 < n) :
    ((List.range n).map (fun k => ((i0 + k : ℕ) : ℚ) / fs)).getD 0 0 =
      (i0 : ℚ) / fs := by
  rw [List.getD_eq_getElem?_getD, List.getElem?_map,
    List.getElem?_range hn]
  simp

/-- C3 amended: the decay fitter returns its four outputs without
raising EXACTLY when the selected fit window [i0, i1) holds at least
two samples, or exactly one sample at a positive start index i0 >= 1.
An empty window raises IndexError at the [RD4-A] progress print, and a
one-sample window starting at i0 = 0 hands np.polyfit the lone abscissa
t = 0, whose zero column norm makes np.linalg.lstsq raise LinAlgError;
in particular a positive envelope value at the window start is not
sufficient. -/
theorem rd4_returns_iff_window_wellformed (p : ℚ)
    (lnf expf sqrtf : ℚ → ℚ) (env : List ℚ) (fs f0 : ℚ)
    (guard_periods : ℕ) (drop_frac : ℚ)
    (hne : env ≠ []) (hfs : 0 < fs) (hf0 : 0 < f0)
    (hd0 : 0 < drop_frac) (hd1 : drop_frac < 1) :
    (rd4_fit_decay p lnf expf sqrtf env fs f0 guard_periods
        drop_frac).isSome = true ↔
      (2 ≤ rd4_i1 env (rd4_i0 env.length fs f0 guard_periods) drop_frac -
          rd4_i0 env.length fs f0 guard_periods ∨
        (rd4_i1 env (rd4_i0 env.length fs f0 guard_periods) drop_frac =
            rd4_i0 env.length fs f0 guard_periods + 1 ∧
          1 ≤ rd4_i0 env.length fs f0 guard_periods)) := by
  unfold rd4_fit_decay
  by_cases hle : rd4_i1 env (rd4_i0 env.length fs f0 guard_periods)
      drop_frac ≤ rd4_i0 env.length fs f0 guard_periods
  · simp only [hle, if_true, Option.isSome_none]
    simp only [Bool.false_eq_true, false_iff]
    omega
  · have hlt := Nat.not_le.mp hle
    simp only [hle, if_false, Option.isSome_map']
    rw [polyfit1_isSome_iff]
    have hlen : ((List.range (rd4_i1 env (rd4_i0 env.length fs f0
        guard_periods) drop_frac - rd4_i0 env.length fs f0
        guard_periods)).map
        (fun k => ((rd4_i0 env.length fs f0 guard_periods + k : ℕ) : ℚ) /
          fs)).length =
        rd4_i1 env (rd4_i0 env.length fs f0 guard_periods) drop_frac -
          rd4_i0 env.length fs f0 guard_periods := by
      rw [List.length_map, List.length_range]
    have hgd := tfit_getD_zero
      (rd4_i1 env (rd4_i0 env.length fs f0 guard_periods) drop_frac -
        rd4_i0 env.length fs f0 guard_periods)
      (rd4_i0 env.length fs f0 guard_periods) fs (by omega)
    rw [hlen, hgd]
    have hz : ((rd4_i0 env.length fs f0 guard_periods : ℚ) / fs = 0) ↔
        rd4_i0 env.length fs f0 guard_periods = 0 := by
      rw [div_eq_zero_iff]
      constructor
      · rintro (h | h)
        · exact_mod_cast h
        · exact absurd h (ne_of_gt hfs)
      · intro h
        left
        exact_mod_cast h
    rw [hz]
    omega

/-- Witness for C3 on a strictly positive three-sample window. -/
theorem rd4_returns_iff_window_wellformed_witness :
    (rd4_fit_decay 3 id id id [1, 1, 1] 1 1 0 (1 / 2)).isSome = true := by
  apply (rd4_returns_iff_window_wellformed 3 id id id [1, 1, 1] 1 1 0
    (1 / 2) (by simp) (by norm_num) (by norm_num) (by norm_num)
    (by norm_num)).mpr
  have hi0 : rd4_i0 ([1, 1, 1] : List ℚ).length 1 1 0 = 0 := by
    unfold rd4_i0
    simp
  have hi1 : rd4_i1 [1, 1, 1] 0 (1 / 2) = 3 := by
    unfold rd4_i1
    norm_num [List.findIdx?_cons, List.findIdx?_succ]
  rw [hi0, hi1]
  omega

example :
    rd4_fit_decay 3 id id id [1, 1 / 100] 1 1 0 (1 / 10) = none := by
  have hi0 : rd4_i0 ([1, 1 / 100] : List ℚ).length 1 1 0 = 0 := by
    unfold rd4_i0
    simp
  have hi1 : rd4_i1 [1, 1 / 100] 0 (1 / 10) = 1 := by
    unfold rd4_i1
    norm_num [List.findIdx?_cons, List.findIdx?_succ]
  have hpoly : polyfit1
      ((List.range (1 - 0)).map (fun k => ((0 + k : ℕ) : ℚ) / 1))
      ((((([1, 1 / 100] : List ℚ).drop 0).take (1 - 0))).map
        (fun v => id (v + 1 / 1000000000000))) = none := by
    unfold polyfit1
    rw [if_pos (by simp)]
    rw [if_pos (by rw [tfit_getD_zero 1 0 1 (by omega)]; norm_num)]
  unfold rd4_fit_decay
  simp only [hi0, hi1]
  rw [if_neg (by omega)]
  rw [hpoly]
  rfl

/-- C3 counterexample: the all-zero one-sample envelope (with fs = 1,
f0 = 1, guard_periods = 0, drop_frac = 1/2, all within the claimed
domain) makes env[i0] <= env[i0] * drop_frac hold immediately, so the
fit window is empty and the code raises IndexError at the progress
print instead of returning the four outputs. -/
theorem rd4_crash_on_zero_envelope :
    rd4_fit_decay 3 id id id [0] 1 1 0 (1 / 2) = none := by
  have hspp : rd4_spp 1 1 = 1 := by
    unfold rd4_spp
    norm_num
  have hi0 : rd4_i0 ([0] : List ℚ).length 1 1 0 = 0 := by
    unfold rd4_i0
    simp
  have hi1 : rd4_i1 [0] 0 (1 / 2) = 0 := by
    unfold rd4_i1
    norm_num [List.findIdx?_cons]
  unfold rd4_fit_decay
  simp only [hi0, hi1]
  rfl

/-- C7 amended: whenever the selected fit window holds at least two
samples (in particular env[i0] > 0; with a single sample np.polyfit is
underdetermined and no OLS slope exists, and with an empty window the
code raises), the fitter returns, its window is exactly
i0 = guard_periods * floor(fs/f0_guess) with fallback 0 when
i0 >= len(env) (then with a warning), i1 is i0 plus the first offset at
which env[i0:] <= env[i0]*drop_frac or len(env) if none, and the
outputs are tau = -1/b for the OLS slope b of ln(env[i0:i1] + 1e-12)
against t = index/fs, and Q_env = pi * f0_guess * tau. -/
theorem rd4_fit_formulas (p : ℚ) (lnf expf sqrtf : ℚ → ℚ) (env : List ℚ)
    (fs f0 : ℚ) (guard_periods : ℕ) (drop_frac : ℚ)
    (hne : env ≠ []) (hfs : 0 < fs) (hf0 : 0 < f0)
    (hd0 : 0 < drop_frac) (hd1 : drop_frac < 1)
    (hwin : 2 ≤ rd4_i1 env (rd4_i0 env.length fs f0 guard_periods)
      drop_frac - rd4_i0 env.length fs f0 guard_periods) :
    ∃ r, rd4_fit_decay p lnf expf sqrtf env fs f0 guard_periods
        drop_frac = some r ∧
      r.i0 = (if env.length ≤ guard_periods * ⌊fs / f0⌋.toNat then 0
        else guard_periods * ⌊fs / f0⌋.toNat) ∧
      r.i1 = ((env.drop r.i0).findIdx?
        (fun v => decide (v ≤ env.getD r.i0 0 * drop_frac))).elim
        env.length (fun j => r.i0 + j) ∧
      (env.length ≤ guard_periods * ⌊fs / f0⌋.toNat →
        r.i0 = 0 ∧ "guard_periods too large" ∈ r.warn) ∧
      r.tau_s = -1 / olsSlope
        ((List.range (r.i1 - r.i0)).map
          (fun k => ((r.i0 + k : ℕ) : ℚ) / fs))
        (((env.drop r.i0).take (r.i1 - r.i0)).map
          (fun v => lnf (v + 1 / 1000000000000))) ∧
      r.Q_env = p * f0 * r.tau_s := by
  have hgt : rd4_i0 env.length fs f0 guard_periods <
      rd4_i1 env (rd4_i0 env.length fs f0 guard_periods) drop_frac := by
    omega
  have hlen2 : 2 ≤ rd4_i1 env (rd4_i0 env.length fs f0 guard_periods)
      drop_frac - rd4_i0 env.length fs f0 guard_periods := hwin
  unfold rd4_fit_decay
  simp only [Nat.not_le.mpr hgt, if_false]
  set T := (List.range (rd4_i1 env (rd4_i0 env.length fs f0 guard_periods)
      drop_frac - rd4_i0 env.length fs f0 guard_periods)).map
    (fun k => ((rd4_i0 env.length fs f0 guard_periods + k : ℕ) : ℚ) / fs)
    with hT
  set Y := ((env.drop (rd4_i0 env.length fs f0 guard_periods)).take
      (rd4_i1 env (rd4_i0 env.length fs f0 guard_periods) drop_frac -
        rd4_i0 env.length fs f0 guard_periods)).map
    (fun v => lnf (v + 1 / 1000000000000)) with hY
  have hlen1 : T.length ≠ 1 := by
    rw [hT, List.length_map, List.length_range]
    omega
  have hpoly : ∃ a, polyfit1 T Y = some (olsSlope T Y, a) := by
    unfold polyfit1 olsSlope
    rw [if_neg hlen1]
    exact ⟨_, rfl⟩
  obtain ⟨a, hpoly⟩ := hpoly
  rw [hpoly]
  simp only [Option.map_some']
  refine ⟨_, rfl, ?_, ?_, ?_, ?_, ?_⟩
  · show rd4_i0 env.length fs f0 guard_periods = _
    unfold rd4_i0 rd4_spp
    rfl
  · show rd4_i1 env (rd4_i0 env.length fs f0 guard_periods) drop_frac = _
    unfold rd4_i1
    cases hfi : (env.drop (rd4_i0 env.length fs f0 guard_periods)).findIdx?
        (fun v => decide (v ≤
          env.getD (rd4_i0 env.length fs f0 guard_periods) 0 * drop_frac))
      with
    | none => rfl
    | some j => rfl
  · intro hle
    have hle' : env.length ≤ guard_periods * rd4_spp fs f0 := by
      unfold rd4_spp
      exact hle
    constructor
    · show rd4_i0 env.length fs f0 guard_periods = 0
      unfold rd4_i0
      rw [if_pos hle']
    · show _ ∈ (if env.length ≤ guard_periods * rd4_spp fs f0 then
          ["guard_periods too large"] else []) ++ _ ++ _
      rw [if_pos hle']
      simp
  · show -1 / olsSlope T Y = _
    rw [hT, hY]
  · rfl

/-- Witness for C7 on the constant envelope [1,1,1] (window [0,3), three
samples). -/
theorem rd4_fit_formulas_witness :
    ∃ r, rd4_fit_decay 3 id id id [1, 1, 1] 1 1 0 (1 / 2) = some r ∧
      r.i0 = (if ([1, 1, 1] : List ℚ).length ≤ 0 * ⌊(1 : ℚ) / 1⌋.toNat
        then 0 else 0 * ⌊(1 : ℚ) / 1⌋.toNat) ∧
      r.i1 = ((([1, 1, 1] : List ℚ).drop r.i0).findIdx?
        (fun v => decide (v ≤ ([1, 1, 1] : List ℚ).getD r.i0 0 *
          (1 / 2)))).elim ([1, 1, 1] : List ℚ).length
          (fun j => r.i0 + j) ∧
      (([1, 1, 1] : List ℚ).length ≤ 0 * ⌊(1 : ℚ) / 1⌋.toNat →
        r.i0 = 0 ∧ "guard_periods too large" ∈ r.warn) ∧
      r.tau_s = -1 / olsSlope
        ((List.range (r.i1 - r.i0)).map
          (fun k => ((r.i0 + k : ℕ) : ℚ) / 1))
        (((([1, 1, 1] : List ℚ).drop r.i0).take (r.i1 - r.i0)).map
          (fun v => id (v + 1 / 1000000000000))) ∧
      r.Q_env = 3 * 1 * r.tau_s := by
  apply rd4_fit_formulas 3 id id id [1, 1, 1] 1 1 0 (1 / 2) (by simp)
    (by norm_num) (by norm_num) (by norm_num) (by norm_num)
  have hi0 : rd4_i0 ([1, 1, 1] : List ℚ).length 1 1 0 = 0 := by
    unfold rd4_i0
    simp
  have hi1 : rd4_i1 [1, 1, 1] 0 (1 / 2) = 3 := by
    unfold rd4_i1
    norm_num [List.findIdx?_cons, List.findIdx?_succ]
  rw [hi0, hi1]
  omega

/-- C7 counterexample: on the envelope [-1, 2, 3] (fs = 1, f0 = 1,
guard_periods = 0, drop_frac = 1/10, all within the claimed domain) the
window-start value env[0] = -1 already satisfies
env[0] <= env[0] * drop_frac, the fit window [0, 0) is empty, and the
code raises IndexError instead of returning tau = -1/b as claimed. -/
theorem rd4_no_return_on_negative_start :
    rd4_fit_decay 3 id id id [-1, 2, 3] 1 1 0 (1 / 10) = none := by
  have hi0 : rd4_i0 ([-1, 2, 3] : List ℚ).length 1 1 0 = 0 := by
    unfold rd4_i0
    simp
  have hi1 : rd4_i1 [-1, 2, 3] 0 (1 / 10) = 0 := by
    unfold rd4_i1
    norm_num [List.findIdx?_cons]
  unfold rd4_fit_decay
  simp only [hi0, hi1]
  rfl
